import Mathlib

/-!
Verification of the pcap-ng reading library (pcarp) against its
natural-language specification.

The development shallowly embeds the Rust sources.  Byte buffers are
modelled as `List Nat` (each element a byte value), and the `bytes::Buf`
cursor reads of the source are modelled as functions consuming a prefix of
the list.  A read that the Rust `bytes` crate would turn into a panic
(reading past the end of the buffer, indexing a slice out of range) is
modelled as a distinct `panic` outcome, so that bounds-checking claims are
expressible.  The byte source backing a capture is modelled as fully
buffered: `fill_buf` returns all remaining input.

The repository contains two generations of the decoder: the `block/`
directory (cursor-based, `bytes::Buf`) and the older `block.rs`/`types.rs`
(slice-based, `byteorder`), which is the generation driven by `lib.rs`.
Both are embedded; definitions from the older generation carry an `Old`
suffix.
-/

namespace Pcarp

/-- Byte order of the current section (src/block/util.rs, src/types.rs). -/
inductive Endianness where
  | big
  | little
deriving DecidableEq, Repr

/-- Result of a cursor-based block-body decode: a typed value, the
`BlockError::TruncatedBlock` error, or a Rust panic (a `bytes::Buf`
read past the end of the buffer). -/
inductive PRes (α : Type) where
  | ok (a : α)
  | truncated
  | panic
deriving DecidableEq, Repr

/-- Value of two bytes combined in the given endianness. -/
def be16 (e : Endianness) (b0 b1 : Nat) : Nat :=
  match e with
  | .big => b0 * 256 + b1
  | .little => b1 * 256 + b0

/-- Value of four bytes combined in the given endianness. -/
def be32 (e : Endianness) (b0 b1 b2 b3 : Nat) : Nat :=
  match e with
  | .big => ((b0 * 256 + b1) * 256 + b2) * 256 + b3
  | .little => ((b3 * 256 + b2) * 256 + b1) * 256 + b0

/-- Value of eight bytes combined in the given endianness. -/
def be64 (e : Endianness) (b0 b1 b2 b3 b4 b5 b6 b7 : Nat) : Nat :=
  match e with
  | .big =>
    ((((((b0 * 256 + b1) * 256 + b2) * 256 + b3) * 256 + b4) * 256
      + b5) * 256 + b6) * 256 + b7
  | .little =>
    ((((((b7 * 256 + b6) * 256 + b5) * 256 + b4) * 256 + b3) * 256
      + b2) * 256 + b1) * 256 + b0

/-- Model of `read_u16` (src/block/util.rs): consume two bytes in the given
endianness.  `none` models the panic of `Buf::get_u16` on underflow. -/
def readU16 (e : Endianness) : List Nat → Option (Nat × List Nat)
  | b0 :: b1 :: rest => some (be16 e b0 b1, rest)
  | _ => none

/-- Model of `read_u32` (src/block/util.rs). -/
def readU32 (e : Endianness) : List Nat → Option (Nat × List Nat)
  | b0 :: b1 :: b2 :: b3 :: rest => some (be32 e b0 b1 b2 b3, rest)
  | _ => none

/-- Model of `read_u64` (src/block/util.rs). -/
def readU64 (e : Endianness) : List Nat → Option (Nat × List Nat)
  | b0 :: b1 :: b2 :: b3 :: b4 :: b5 :: b6 :: b7 :: rest =>
    some (be64 e b0 b1 b2 b3 b4 b5 b6 b7, rest)
  | _ => none

/-- Model of `read_i64` (src/block/util.rs): the unsigned 64-bit value
reinterpreted in two's complement. -/
def readI64 (e : Endianness) (buf : List Nat) : Option (Int × List Nat) :=
  (readU64 e buf).map fun p =>
    (if p.1 < 2 ^ 63 then (p.1 : Int) else (p.1 : Int) - 2 ^ 64, p.2)

/-- Model of `read_bytes` (src/block/util.rs): take `len` bytes and skip the
padding to the next 4-byte boundary; `none` models `TruncatedBlock`. -/
def readBytes (len : Nat) (buf : List Nat) : Option (List Nat × List Nat) :=
  if buf.length < len + (4 - len % 4) % 4 then none
  else some (buf.take len, buf.drop (len + (4 - len % 4) % 4))

/-- Model of `read_ts` (src/block/util.rs): two u32 reads assembled as
`(hi << 32) + lo`. -/
def readTs (e : Endianness) (buf : List Nat) : Option (Nat × List Nat) :=
  match readU32 e buf with
  | none => none
  | some (hi, buf) =>
    match readU32 e buf with
    | none => none
    | some (lo, buf) => some (hi * 2 ^ 32 + lo, buf)

/-- Outcome of running the option-list parser (src/block/opts.rs):
the list of `(option_type, option_bytes)` pairs handed to the callback, a
Rust panic, or exhaustion of the recursion fuel of the model. -/
inductive OptRun where
  | events (evs : List (Nat × List Nat))
  | panic
  | fuelOut
deriving DecidableEq, Repr

/-- Model of the loop of `parse_options` (src/block/opts.rs), with explicit
fuel.  Option types 0 (end of options), 1 (comment) and the custom-data
types 2988/2989/19372/19373 produce no callback event; a truncated option
value ends the loop. -/
def parseOptionsF (e : Endianness) : Nat → List Nat → OptRun
  | 0, _ => .fuelOut
  | fuel + 1, buf =>
    if 3 < buf.length then
      match readU16 e buf with
      | none => .panic
      | some (optionType, buf) =>
        match readU16 e buf with
        | none => .panic
        | some (optionLen, buf) =>
          match readBytes optionLen buf with
          | none => .events []
          | some (optionBytes, buf) =>
            if optionType = 0 then .events []
            else if optionType = 1 then parseOptionsF e fuel buf
            else if optionType = 2988 ∨ optionType = 2989 ∨
                    optionType = 19372 ∨ optionType = 19373 then
              parseOptionsF e fuel buf
            else
              match parseOptionsF e fuel buf with
              | .events evs => .events ((optionType, optionBytes) :: evs)
              | r => r
    else .events []

/-- Model of `parse_options` (src/block/opts.rs).  Each loop iteration
consumes at least four bytes, so `buf.length + 1` units of fuel always
suffice (`parseOptionsF_no_fuelOut`). -/
def parseOptions (e : Endianness) (buf : List Nat) : OptRun :=
  parseOptionsF e (buf.length + 1) buf

/-! ### Option-value helpers (src/block/opts.rs)

Strings decoded with `String::from_utf8_lossy` are kept as their raw byte
lists: the UTF-8 presentation is display glue and plays no role in any
claim. -/

/-- Model of `bytes_to_array::<N>` via `ensure_len`: the value bytes, or
`None` (with a warning) on a length mismatch. -/
def bytesToArray (n : Nat) (bytes : List Nat) : Option (List Nat) :=
  if bytes.length = n then some bytes else none

/-- Model of `bytes_to_u64` (src/block/opts.rs). -/
def bytesToU64 (bytes : List Nat) (e : Endianness) : Option Nat :=
  if bytes.length = 8 then (readU64 e bytes).map Prod.fst else none

/-- Model of `bytes_to_u32` (src/block/opts.rs). -/
def bytesToU32 (bytes : List Nat) (e : Endianness) : Option Nat :=
  if bytes.length = 4 then (readU32 e bytes).map Prod.fst else none

/-- Model of `bytes_to_ts` (src/block/opts.rs). -/
def bytesToTs (bytes : List Nat) (e : Endianness) : Option Nat :=
  if bytes.length = 8 then (readTs e bytes).map Prod.fst else none

/-! ### Cursor-based block-body decoders (src/block/) -/

/-- Model of the if_tsresol handling in the option callback of
`InterfaceDescription::parse` (src/block/idb.rs, option type 9): the low
7 bits are the exponent, the top bit selects base 10 or base 2 (`v` is a
`u8`, so `v >> 7` is 0 or 1); `checked_pow` keeps the previous value when
`base ^ exp` exceeds `u32::MAX` (with a warning). -/
def applyTsresol (v : Nat) (cur : Nat) : Nat :=
  if (if v / 128 = 0 then 10 else 2) ^ (v % 128) ≤ 4294967295 then
    (if v / 128 = 0 then 10 else 2) ^ (v % 128)
  else cur

/-- Typed interface-description block (src/block/idb.rs).  `link_type` is
kept as its raw u16 code: the `LinkType` enumeration is a mechanical
mapping explicitly out of the specification's scope. -/
structure InterfaceDescriptionN where
  linkType : Nat
  snapLen : Option Nat
  ifName : List Nat := []
  ifDescription : List Nat := []
  ifIpv4Addr : List (List Nat) := []
  ifIpv6Addr : List (List Nat) := []
  ifMacAddr : Option (List Nat) := none
  ifEuiAddr : Option (List Nat) := none
  ifSpeed : Option Nat := none
  ifTsresol : Nat := 1000000
  ifTzone : Option (List Nat) := none
  ifFilter : List Nat := []
  ifOs : List Nat := []
  ifFcslen : Option (List Nat) := none
  ifTsoffset : Option (List Nat) := none
  ifHardware : List Nat := []
  ifTxspeed : Option (List Nat) := none
  ifRxspeed : Option (List Nat) := none
deriving DecidableEq, Repr

/-- Effect of one option callback invocation of
`InterfaceDescription::parse` (src/block/idb.rs). -/
def InterfaceDescriptionN.applyOption (e : Endianness)
    (d : InterfaceDescriptionN) (ev : Nat × List Nat) :
    InterfaceDescriptionN :=
  match ev.1 with
  | 2 => { d with ifName := ev.2 }
  | 3 => { d with ifDescription := ev.2 }
  | 4 => match bytesToArray 8 ev.2 with
         | some x => { d with ifIpv4Addr := d.ifIpv4Addr ++ [x] }
         | none => d
  | 5 => match bytesToArray 17 ev.2 with
         | some x => { d with ifIpv6Addr := d.ifIpv6Addr ++ [x] }
         | none => d
  | 6 => { d with ifMacAddr := bytesToArray 6 ev.2 }
  | 7 => { d with ifEuiAddr := bytesToArray 8 ev.2 }
  | 8 => { d with ifSpeed := bytesToU64 ev.2 e }
  | 9 => match bytesToArray 1 ev.2 with
         | some [v] => { d with ifTsresol := applyTsresol v d.ifTsresol }
         | _ => d
  | 10 => { d with ifTzone := bytesToArray 4 ev.2 }
  | 11 => { d with ifFilter := ev.2 }
  | 12 => { d with ifOs := ev.2 }
  | 13 => { d with ifFcslen := bytesToArray 1 ev.2 }
  | 14 => { d with ifTsoffset := bytesToArray 8 ev.2 }
  | 15 => { d with ifHardware := ev.2 }
  | 16 => { d with ifTxspeed := bytesToArray 8 ev.2 }
  | 17 => { d with ifRxspeed := bytesToArray 8 ev.2 }
  | _ => d

/-- Model of `InterfaceDescription::parse` (src/block/idb.rs): link type
(u16), two bytes of padding, snap_len (u32, 0 meaning unlimited), then the
option list, whose callback effects are folded left over the events in
order. -/
def InterfaceDescriptionN.parse (buf : List Nat) (e : Endianness) :
    PRes InterfaceDescriptionN :=
  if buf.length < 8 then .truncated
  else
    match readU16 e buf with
    | none => .panic
    | some (code, buf) =>
      match buf with
      | _ :: _ :: buf =>
        match readU32 e buf with
        | none => .panic
        | some (snapRaw, buf) =>
          match parseOptions e buf with
          | .events evs =>
            .ok (evs.foldl (InterfaceDescriptionN.applyOption e)
              { linkType := code
                snapLen := if snapRaw = 0 then none else some snapRaw })
          | _ => .panic
      | _ => .panic

/-- Typed simple-packet block (src/block/spb.rs). -/
structure SimplePacketN where
  packetLen : Nat
  packetData : List Nat
deriving DecidableEq, Repr

/-- Model of `SimplePacket::parse` (src/block/spb.rs): packet_len (u32),
then `read_bytes(packet_len)` for the packet data. -/
def SimplePacketN.parse (buf : List Nat) (e : Endianness) :
    PRes SimplePacketN :=
  if buf.length < 4 then .truncated
  else
    match readU32 e buf with
    | none => .panic
    | some (packetLen, buf) =>
      match readBytes packetLen buf with
      | none => .truncated
      | some (packetData, _) => .ok { packetLen, packetData }

/-- Typed obsolete-packet block (src/block/opb.rs). -/
structure ObsoletePacketN where
  interfaceId : Nat
  dropsCount : Option Nat
  timestamp : Nat
  capturedLen : Nat
  packetLen : Nat
  packetData : List Nat
  options : List (Nat × List Nat)
deriving DecidableEq, Repr

/-- Model of `ObsoletePacket::parse` (src/block/opb.rs): interface id
(u16), drops count (u16, 0xFFFF meaning unknown), timestamp via `read_ts`,
captured and original lengths (u32), packet data, options. -/
def ObsoletePacketN.parse (buf : List Nat) (e : Endianness) :
    PRes ObsoletePacketN :=
  if buf.length < 20 then .truncated
  else
    match readU16 e buf with
    | none => .panic
    | some (interfaceId, buf) =>
      match readU16 e buf with
      | none => .panic
      | some (dropsRaw, buf) =>
        match readTs e buf with
        | none => .panic
        | some (timestamp, buf) =>
          match readU32 e buf with
          | none => .panic
          | some (capturedLen, buf) =>
            match readU32 e buf with
            | none => .panic
            | some (packetLen, buf) =>
              match readBytes capturedLen buf with
              | none => .truncated
              | some (packetData, buf) =>
                match parseOptions e buf with
                | .events options =>
                  .ok { interfaceId
                        dropsCount :=
                          if dropsRaw = 65535 then none else some dropsRaw
                        timestamp, capturedLen, packetLen, packetData
                        options }
                | _ => .panic

/-- Typed section-header block (src/block/shb.rs). -/
structure SectionHeaderN where
  endianness : Endianness
  majorVersion : Nat
  minorVersion : Nat
  sectionLength : Option Nat
  shbHardware : List Nat := []
  shbOs : List Nat := []
  shbUserappl : List Nat := []
deriving DecidableEq, Repr

/-- Effect of one option callback invocation of `SectionHeader::parse`
(src/block/shb.rs). -/
def SectionHeaderN.applyOption (d : SectionHeaderN) (ev : Nat × List Nat) :
    SectionHeaderN :=
  match ev.1 with
  | 2 => { d with shbHardware := ev.2 }
  | 3 => { d with shbOs := ev.2 }
  | 4 => { d with shbUserappl := ev.2 }
  | _ => d

/-- Model of `SectionHeader::parse` (src/block/shb.rs).  The source checks
for 12 remaining bytes (`ensure_remaining!(buf, 12)`) but then consumes
16: 4 bytes of byte-order magic (already parsed by the framer), major and
minor version (u16 each) and the section length (i64), so the final
`read_i64` can underflow — a `panic` outcome. -/
def SectionHeaderN.parse (buf : List Nat) (e : Endianness) :
    PRes SectionHeaderN :=
  if buf.length < 12 then .truncated
  else
    match buf with
    | _ :: _ :: _ :: _ :: buf =>
      match readU16 e buf with
      | none => .panic
      | some (majorVersion, buf) =>
        match readU16 e buf with
        | none => .panic
        | some (minorVersion, buf) =>
          match readI64 e buf with
          | none => .panic
          | some (raw, buf) =>
            match parseOptions e buf with
            | .events evs =>
              .ok (evs.foldl SectionHeaderN.applyOption
                { endianness := e
                  majorVersion, minorVersion
                  sectionLength :=
                    if raw = -1 then none
                    else if 0 ≤ raw then some raw.toNat
                    else none })
            | _ => .panic
    | _ => .panic

/-- Typed interface-statistics block (src/block/isb.rs). -/
structure InterfaceStatisticsN where
  interfaceId : Nat
  timestamp : Nat
  isbStarttime : Option Nat := none
  isbEndtime : Option Nat := none
  isbIfrecv : Option Nat := none
  isbIfdrop : Option Nat := none
  isbFilterAccept : Option Nat := none
  isbOsdrop : Option Nat := none
  isbUsrdeliv : Option Nat := none
deriving DecidableEq, Repr

/-- Effect of one option callback invocation of
`InterfaceStatistics::parse` (src/block/isb.rs). -/
def InterfaceStatisticsN.applyOption (e : Endianness)
    (d : InterfaceStatisticsN) (ev : Nat × List Nat) :
    InterfaceStatisticsN :=
  match ev.1 with
  | 2 => { d with isbStarttime := bytesToTs ev.2 e }
  | 3 => { d with isbEndtime := bytesToTs ev.2 e }
  | 4 => { d with isbIfrecv := bytesToU64 ev.2 e }
  | 5 => { d with isbIfdrop := bytesToU64 ev.2 e }
  | 6 => { d with isbFilterAccept := bytesToU64 ev.2 e }
  | 7 => { d with isbOsdrop := bytesToU64 ev.2 e }
  | 8 => { d with isbUsrdeliv := bytesToU64 ev.2 e }
  | _ => d

/-- Model of `InterfaceStatistics::parse` (src/block/isb.rs): interface id
(u32), timestamp via `read_ts`, then the option list. -/
def InterfaceStatisticsN.parse (buf : List Nat) (e : Endianness) :
    PRes InterfaceStatisticsN :=
  if buf.length < 12 then .truncated
  else
    match readU32 e buf with
    | none => .panic
    | some (interfaceId, buf) =>
      match readTs e buf with
      | none => .panic
      | some (timestamp, buf) =>
        match parseOptions e buf with
        | .events evs =>
          .ok (evs.foldl (InterfaceStatisticsN.applyOption e)
            { interfaceId, timestamp })
        | _ => .panic

/-! ### Old-generation layer (src/block.rs, src/types.rs, src/lib.rs)

This is the slice-based generation driven by `lib.rs`.  `byteorder` reads
`B::read_uNN(&buf[i..i+k])` are modelled by `sliceUNN`; a slice range out
of bounds is a Rust panic, modelled as `none` there and as the `panic`
outcome of `ORes`. -/

/-- Error enumeration of src/types.rs and src/lib.rs (the IO variant is
omitted: the model has no I/O). -/
inductive Err where
  | didntUnderstandMagicNumber (magic : List Nat)
  | notEnoughBytes (expected actual : Nat)
  | didntStartWithSHB
  | blockLengthMismatch
  | blockLengthTooShort
  | wrongOptionLen (n : Nat)
  | optionsAfterEnd
  | resolutionTooHigh
deriving DecidableEq, Repr

/-- Result of an old-generation fallible operation: a value, an `Err`, or
a Rust panic. -/
inductive ORes (α : Type) where
  | ok (a : α)
  | err (e : Err)
  | panic
deriving DecidableEq, Repr

/-- Functorial action on the `ok` case of `ORes`. -/
def ORes.mapO (f : α → β) : ORes α → ORes β
  | .ok a => .ok (f a)
  | .err e => .err e
  | .panic => .panic

/-- Model of `require_bytes` (src/types.rs): `some` is the
`NotEnoughBytes` error. -/
def requireBytes (buf : List Nat) (len : Nat) : Option Err :=
  if buf.length < len then some (.notEnoughBytes len buf.length) else none

/-- Model of `B::read_u16(&buf[i..i+2])`: `none` is the slice-range panic. -/
def sliceU16 (e : Endianness) (buf : List Nat) (i : Nat) : Option Nat :=
  (readU16 e (buf.drop i)).map Prod.fst

/-- Model of `B::read_u32(&buf[i..i+4])`. -/
def sliceU32 (e : Endianness) (buf : List Nat) (i : Nat) : Option Nat :=
  (readU32 e (buf.drop i)).map Prod.fst

/-- Model of `B::read_i64(&buf[i..i+8])`. -/
def sliceI64 (e : Endianness) (buf : List Nat) (i : Nat) : Option Int :=
  (readI64 e (buf.drop i)).map Prod.fst

/-- Model of `Endianness::parse_from_magic` (src/types.rs). -/
def Endianness.parseFromMagic (buf : List Nat) : ORes Endianness :=
  if buf.length < 4 then .panic
  else if buf.take 4 = [0x1A, 0x2B, 0x3C, 0x4D] then .ok .big
  else if buf.take 4 = [0x4D, 0x3C, 0x2B, 0x1A] then .ok .little
  else .err (.didntUnderstandMagicNumber (buf.take 4))

/-- Model of `peek_for_shb` (src/lib.rs): `ok none` when the first four
bytes are not the SHB type code, `ok (some e)` when they are and the
byte-order magic at bytes 8..12 decodes to endianness `e`. -/
def peekForShb (buf : List Nat) : ORes (Option Endianness) :=
  match requireBytes buf 4 with
  | some er => .err er
  | none =>
    if buf.take 4 ≠ [0x0A, 0x0D, 0x0D, 0x0A] then .ok none
    else
      match requireBytes buf 12 with
      | some er => .err er
      | none => (Endianness.parseFromMagic ((buf.drop 8).take 4)).mapO some

/-- Typed section-header block of the old generation (src/block.rs). -/
structure SectionHeaderOld where
  endianness : Endianness
  majorVersion : Nat
  minorVersion : Nat
  sectionLength : Int
  options : List Nat
deriving DecidableEq, Repr

/-- Model of the old `SectionHeader::parse` (src/block.rs). -/
def SectionHeaderOld.parse (buf : List Nat) (e : Endianness) :
    ORes SectionHeaderOld :=
  match requireBytes buf 16 with
  | some er => .err er
  | none =>
    match sliceU16 e buf 4, sliceU16 e buf 6, sliceI64 e buf 8 with
    | some major, some minor, some slen =>
      .ok { endianness := e, majorVersion := major, minorVersion := minor
            sectionLength := slen, options := buf.drop 16 }
    | _, _, _ => .panic

/-- Typed interface-description block of the old generation
(src/block.rs).  `link_type` is kept as its raw u16 code. -/
structure InterfaceDescriptionOld where
  linkType : Nat
  snapLen : Nat
  options : List Nat
deriving DecidableEq, Repr

/-- Model of the old `InterfaceDescription::parse` (src/block.rs). -/
def InterfaceDescriptionOld.parse (buf : List Nat) (e : Endianness) :
    ORes InterfaceDescriptionOld :=
  match requireBytes buf 8 with
  | some er => .err er
  | none =>
    match sliceU16 e buf 0, sliceU32 e buf 4 with
    | some lt, some snap =>
      .ok { linkType := lt, snapLen := snap, options := buf.drop 8 }
    | _, _ => .panic

/-- Typed enhanced-packet block of the old generation (src/block.rs).
`packet_data` is a `Range<usize>` into the block body. -/
structure EnhancedPacketOld where
  interfaceId : Nat
  timestamp : Nat
  capturedLen : Nat
  packetLen : Nat
  packetData : Nat × Nat
  options : List Nat
deriving DecidableEq, Repr

/-- Model of the old `EnhancedPacket::parse` (src/block.rs).  The source
reads `captured_len` from `buf[12..16]` before any bounds check, so a body
shorter than 16 bytes panics. -/
def EnhancedPacketOld.parse (buf : List Nat) (e : Endianness) :
    ORes EnhancedPacketOld :=
  match sliceU32 e buf 12 with
  | none => .panic
  | some capturedLen =>
    match requireBytes buf (20 + capturedLen) with
    | some er => .err er
    | none =>
      match sliceU32 e buf 4, sliceU32 e buf 8, sliceU32 e buf 0,
          sliceU32 e buf 16 with
      | some hi, some lo, some ifid, some plen =>
        .ok { interfaceId := ifid, timestamp := hi * 2 ^ 32 + lo
              capturedLen, packetLen := plen
              packetData := (20, 20 + capturedLen)
              options := buf.drop (20 + capturedLen) }
      | _, _, _, _ => .panic

/-- Typed simple-packet block of the old generation (src/block.rs). -/
structure SimplePacketOld where
  packetLen : Nat
  packetData : Nat × Nat
deriving DecidableEq, Repr

/-- Model of the old `SimplePacket::parse` (src/block.rs): reads
`packet_len` from `buf[0..4]` before any bounds check, then requires
`4 + packet_len` bytes and takes exactly `packet_len` bytes of data. -/
def SimplePacketOld.parse (buf : List Nat) (e : Endianness) :
    ORes SimplePacketOld :=
  match sliceU32 e buf 0 with
  | none => .panic
  | some packetLen =>
    match requireBytes buf (4 + packetLen) with
    | some er => .err er
    | none => .ok { packetLen, packetData := (4, 4 + packetLen) }

/-- Typed name-resolution block of the old generation (src/block.rs). -/
structure NameResolutionOld where
  recordValues : List Nat
deriving DecidableEq, Repr

/-- Model of the old `NameResolution::parse` (src/block.rs). -/
def NameResolutionOld.parse (buf : List Nat) (_e : Endianness) :
    ORes NameResolutionOld :=
  .ok { recordValues := buf }

/-- Typed interface-statistics block of the old generation
(src/block.rs). -/
structure InterfaceStatisticsOld where
  interfaceId : Nat
  timestampHigh : Nat
  timestampLow : Nat
  options : List Nat
deriving DecidableEq, Repr

/-- Model of the old `InterfaceStatistics::parse` (src/block.rs). -/
def InterfaceStatisticsOld.parse (buf : List Nat) (e : Endianness) :
    ORes InterfaceStatisticsOld :=
  match requireBytes buf 12 with
  | some er => .err er
  | none =>
    match sliceU32 e buf 0, sliceU32 e buf 4, sliceU32 e buf 8 with
    | some ifid, some hi, some lo =>
      .ok { interfaceId := ifid, timestampHigh := hi, timestampLow := lo
            options := buf.drop 12 }
    | _, _, _ => .panic

/-- Typed obsolete-packet block of the old generation (src/block.rs). -/
structure ObsoletePacketOld where
  interfaceId : Nat
  dropsCount : Nat
  timestamp : Nat
  capturedLen : Nat
  packetLen : Nat
  packetData : Nat × Nat
  options : List Nat
deriving DecidableEq, Repr

/-- Model of the old `ObsoletePacket::parse` (src/block.rs).  The source
assembles the timestamp as `(timestamp_high << 4) + timestamp_low` — the
`<< 4` is transcribed verbatim (the field carries a FIXME in the source).
Like the old EPB it reads `buf[12..16]` before any bounds check. -/
def ObsoletePacketOld.parse (buf : List Nat) (e : Endianness) :
    ORes ObsoletePacketOld :=
  match sliceU32 e buf 12 with
  | none => .panic
  | some capturedLen =>
    match requireBytes buf (20 + capturedLen) with
    | some er => .err er
    | none =>
      match sliceU32 e buf 4, sliceU32 e buf 8, sliceU16 e buf 0,
          sliceU16 e buf 2, sliceU32 e buf 16 with
      | some hi, some lo, some ifid, some drops, some plen =>
        .ok { interfaceId := ifid, dropsCount := drops
              timestamp := hi * 2 ^ 4 + lo
              capturedLen, packetLen := plen
              packetData := (20, 20 + capturedLen)
              options := buf.drop (20 + capturedLen) }
      | _, _, _, _, _ => .panic

/-- Old-generation block sum type (src/block.rs). -/
inductive BlockOld where
  | sectionHeader (x : SectionHeaderOld)
  | interfaceDescription (x : InterfaceDescriptionOld)
  | obsoletePacket (x : ObsoletePacketOld)
  | simplePacket (x : SimplePacketOld)
  | nameResolution (x : NameResolutionOld)
  | interfaceStatistics (x : InterfaceStatisticsOld)
  | enhancedPacket (x : EnhancedPacketOld)
  | irigTimestamp
  | arinc429
  | unknown (code : Nat)
deriving DecidableEq, Repr

/-- Model of the old `Block::parse` (src/block.rs): returns the number of
bytes the caller should skip together with the decode result. -/
def BlockOld.parse (buf : List Nat) (e : Endianness) : Nat × ORes BlockOld :=
  match requireBytes buf 8 with
  | some er => (buf.length, .err er)
  | none =>
    match sliceU32 e buf 0, sliceU32 e buf 4 with
    | some blockType, some blockLength =>
      (blockLength,
        if blockLength < 12 then .err .blockLengthTooShort
        else
          match requireBytes buf blockLength with
          | some er => .err er
          | none =>
            match sliceU32 e buf (blockLength - 4) with
            | none => .panic
            | some blockLength2 =>
              if blockLength ≠ blockLength2 then .err .blockLengthMismatch
              else
                let body := (buf.drop 8).take (blockLength - 12)
                if blockType = 0x0A0D0D0A then
                  (SectionHeaderOld.parse body e).mapO .sectionHeader
                else if blockType = 1 then
                  (InterfaceDescriptionOld.parse body e).mapO
                    .interfaceDescription
                else if blockType = 2 then
                  (ObsoletePacketOld.parse body e).mapO .obsoletePacket
                else if blockType = 3 then
                  (SimplePacketOld.parse body e).mapO .simplePacket
                else if blockType = 4 then
                  (NameResolutionOld.parse body e).mapO .nameResolution
                else if blockType = 5 then
                  (InterfaceStatisticsOld.parse body e).mapO
                    .interfaceStatistics
                else if blockType = 6 then
                  (EnhancedPacketOld.parse body e).mapO .enhancedPacket
                else if blockType = 7 then .ok .irigTimestamp
                else if blockType = 8 then .ok .arinc429
                else .ok (.unknown blockType))
    | _, _ => (buf.length, .panic)

/-- Decoded per-section interface record of the old generation
(src/types.rs `Interface`).  The id is the `(section, index)` pair that
`lib.rs` constructs. -/
structure InterfaceOld where
  id : Nat × Nat
  linkType : Nat
  unitsPerSec : Nat
deriving DecidableEq, Repr

/-- Model of the option loop of `Interface::from_desc` (src/types.rs),
with explicit fuel; returns the final `units_per_sec`.  The cursor `i`
advances by at least four bytes per iteration, so `opts.length + 1` units
of fuel always suffice; exhaustion is mapped to `panic` (unreachable).
The value byte of an if_tsresol option is `opts[i]`, read by plain
indexing — out of bounds is a Rust panic; `v >> 7` of a byte is 0 or 1 and
the source leaves `units_per_sec` unchanged in its `_ => impossible`
arm. -/
def fromDescLoopF (e : Endianness) (opts : List Nat) :
    Nat → Nat → Nat → ORes Nat
  | 0, _, _ => .panic
  | fuel + 1, i, units =>
    if opts.length < i + 4 then .ok units
    else
      match sliceU16 e opts i, sliceU16 e opts (i + 2) with
      | some optionType, some optionLen =>
        if optionType = 0 then
          if i + 4 ≠ opts.length then .err .optionsAfterEnd else .ok units
        else if optionType = 9 then
          if optionLen ≠ 1 then .err (.wrongOptionLen optionLen)
          else
            match opts.get? (i + 4) with
            | none => .panic
            | some v =>
              if v / 128 = 0 then
                if 10 ^ (v % 128) ≤ 4294967295 then
                  fromDescLoopF e opts fuel
                    (i + 4 + optionLen + (4 - optionLen % 4) % 4)
                    (10 ^ (v % 128))
                else .err .resolutionTooHigh
              else if v / 128 = 1 then
                if 2 ^ (v % 128) ≤ 4294967295 then
                  fromDescLoopF e opts fuel
                    (i + 4 + optionLen + (4 - optionLen % 4) % 4)
                    (2 ^ (v % 128))
                else .err .resolutionTooHigh
              else
                fromDescLoopF e opts fuel
                  (i + 4 + optionLen + (4 - optionLen % 4) % 4) units
        else
          fromDescLoopF e opts fuel
            (i + 4 + optionLen + (4 - optionLen % 4) % 4) units
      | _, _ => .panic

/-- Model of `Interface::from_desc` (src/types.rs): default
`units_per_sec` of 10⁶, updated by the if_tsresol option. -/
def fromDesc (e : Endianness) (id : Nat × Nat)
    (desc : InterfaceDescriptionOld) : ORes InterfaceOld :=
  (fromDescLoopF e desc.options (desc.options.length + 1) 0 1000000).mapO
    fun units =>
      { id, linkType := desc.linkType, unitsPerSec := units }

/-! ### Capture engine (src/lib.rs)

The byte source together with the `BufReader` is modelled as the full
input list plus a cursor `pos`: `fill_buf` returns `input.drop pos` and
`consume n` saturates at the end of the input, as `buf_redux` does.
`n_bytes_read` always equals the number of consumed bytes, so `pos` plays
both roles. -/

/-- State of `Capture` (src/lib.rs). -/
structure CapState where
  input : List Nat
  pos : Nat
  finished : Bool
  endianness : Endianness
  interfaces : List InterfaceOld
  resolvedNames : List NameResolutionOld
  lastBlockLen : Nat
  currentSection : Nat
  currentTimestamp : Option Nat
  currentInterface : Option Nat
  currentData : Nat × Nat
deriving DecidableEq, Repr

/-- Model of `Capture::new` (src/lib.rs): peek for an SHB; a peek of
`None` is the `DidntStartWithSHB` error. -/
def capNew (input : List Nat) : ORes CapState :=
  match peekForShb input with
  | .err er => .err er
  | .panic => .panic
  | .ok none => .err .didntStartWithSHB
  | .ok (some e) =>
    .ok { input, pos := 0, finished := false, endianness := e
          interfaces := [], resolvedNames := [], lastBlockLen := 0
          currentSection := 0, currentTimestamp := none
          currentInterface := none, currentData := (0, 0) }

/-- Endianness update of `Capture::advance` (src/lib.rs): when the peek
saw a section header, adopt its byte order. -/
def updateEndianness (s : CapState) : Option Endianness → CapState
  | some e2 => { s with endianness := e2 }
  | none => s

/-- Model of the loop of `Capture::advance` (src/lib.rs), with explicit
fuel (`none` is fuel exhaustion; every continuing iteration consumes at
least twelve bytes, so `input.length + 1` units always suffice).  Each
iteration discards the previous block, refills, peeks for a section
header, parses a block and dispatches on it; packet blocks, errors and
end of input return. -/
def advanceF : Nat → CapState → Option (ORes Unit × CapState)
  | 0, _ => none
  | fuel + 1, s0 =>
    let s1 := { s0 with
                pos := min (s0.pos + s0.lastBlockLen) s0.input.length }
    let buf := s1.input.drop s1.pos
    if buf.isEmpty then
      some (.ok (), { s1 with lastBlockLen := 0, finished := true })
    else
      match peekForShb buf with
      | .err er => some (.err er, s1)
      | .panic => some (.panic, s1)
      | .ok oe =>
        let s2 := updateEndianness s1 oe
        let pr := BlockOld.parse buf s2.endianness
        let s3 := { s2 with lastBlockLen := pr.1 }
        match pr.2 with
        | .err er => some (.err er, s3)
        | .panic => some (.panic, s3)
        | .ok b =>
          match b with
          | .sectionHeader x =>
            if s3.endianness ≠ x.endianness then some (.panic, s3)
            else
              advanceF fuel
                { s3 with interfaces := [], currentInterface := none
                          resolvedNames := []
                          currentSection := s3.currentSection + 1 }
          | .interfaceDescription d =>
            match fromDesc s3.endianness
                (s3.currentSection, s3.interfaces.length) d with
            | .ok i =>
              advanceF fuel { s3 with interfaces := s3.interfaces ++ [i] }
            | .err er => some (.err er, s3)
            | .panic => some (.panic, s3)
          | .enhancedPacket p =>
            some (.ok (), { s3 with
                            currentTimestamp := some p.timestamp
                            currentInterface := some p.interfaceId
                            currentData := p.packetData })
          | .simplePacket p =>
            some (.ok (), { s3 with
                            currentTimestamp := none
                            currentInterface := none
                            currentData := p.packetData })
          | .obsoletePacket p =>
            some (.ok (), { s3 with
                            currentTimestamp := some p.timestamp
                            currentInterface := some p.interfaceId
                            currentData := p.packetData })
          | .nameResolution x =>
            advanceF fuel { s3 with
                            resolvedNames := s3.resolvedNames ++ [x] }
          | .interfaceStatistics _ => advanceF fuel s3
          | .irigTimestamp => advanceF fuel s3
          | .arinc429 => advanceF fuel s3
          | .unknown _ => advanceF fuel s3

/-- Model of `Capture::advance` (src/lib.rs). -/
def advance (s : CapState) : ORes Unit × CapState :=
  match advanceF (s.input.length + 1) s with
  | some r => r
  | none => (.panic, s)

/-- Public packet value (src/lib.rs `Packet`).  The timestamp is the
`(seconds, nanoseconds)` pair added to the Unix epoch. -/
structure Packet where
  timestamp : Option (Nat × Nat)
  interface : Option (Nat × Nat)
  data : List Nat
  dataOffset : Nat × Nat
deriving DecidableEq, Repr

/-- Model of `Duration::new`: nanoseconds at or above 10⁹ carry into the
seconds. -/
def durationNew (secs nanos : Nat) : Nat × Nat :=
  (secs + nanos / 1000000000, nanos % 1000000000)

/-- Model of Rust's `slice.get(a..b)`: `some` exactly when
`a ≤ b ∧ b ≤ length`. -/
def listSlice (l : List Nat) (a b : Nat) : Option (List Nat) :=
  if a ≤ b ∧ b ≤ l.length then some ((l.drop a).take (b - a)) else none

/-- Outcome of `Capture::get`. -/
inductive GetOut where
  | packet (p : Packet)
  | noPacket
  | panic
deriving DecidableEq, Repr

/-- Model of `Capture::get` (src/lib.rs).  The timestamp is computed only
when the current interface id resolves in the interface table
(`units_per_sec` of a constructed interface is at least 1, so the u64
divisions cannot divide by zero; `(ts % u) * 10⁹` with `u : u32` cannot
overflow u64).  Slicing the buffer at `[8..]` panics when fewer than
eight bytes remain. -/
def capGet (s : CapState) : GetOut :=
  if s.finished then .noPacket
  else
    let interface := s.currentInterface.map fun x => (s.currentSection, x)
    let timestamp :=
      match s.currentInterface, s.currentTimestamp with
      | some id, some ts =>
        match s.interfaces.get? id with
        | some iface =>
          some (durationNew (ts / iface.unitsPerSec)
            (ts % iface.unitsPerSec * 1000000000 / iface.unitsPerSec
              % 2 ^ 32))
        | none => none
      | _, _ => none
    let buffer := s.input.drop s.pos
    if buffer.length < 8 then .panic
    else
      match listSlice (buffer.drop 8) s.currentData.1 s.currentData.2 with
      | none => .noPacket
      | some data =>
        .packet { timestamp, interface, data
                  dataOffset := (s.currentData.1 + s.pos + 8,
                                 s.currentData.2 + s.pos + 8) }

/-- Outcome of `Capture::next`: a packet, end of stream (`None`), an
error, or a panic. -/
inductive NextOut where
  | packet (p : Packet)
  | fin
  | error (e : Err)
  | panic
deriving DecidableEq, Repr

/-- Model of `Capture::next` (src/lib.rs): `advance` then `get`. -/
def capNext (s : CapState) : NextOut × CapState :=
  match advance s with
  | (.err er, s1) => (.error er, s1)
  | (.panic, s1) => (.panic, s1)
  | (.ok _, s1) =>
    match capGet s1 with
    | .packet p => (.packet p, s1)
    | .noPacket => (.fin, s1)
    | .panic => (.panic, s1)

/-- Model of `Capture::lookup_interface` (src/lib.rs): ids of a section
other than the current one resolve to `none`. -/
def lookupInterface (s : CapState) (interfaceId : Nat × Nat) :
    Option InterfaceOld :=
  if interfaceId.1 ≠ s.currentSection then none
  else s.interfaces.get? interfaceId.2

/-- Iterated `next`: the result of the `(k+1)`-st call. -/
def nextIter : Nat → CapState → NextOut × CapState
  | 0, s => capNext s
  | k + 1, s => nextIter k (capNext s).2

/-- Capture states reachable from `Capture::new` on a given input by any
number of `advance` calls (`next` and `get` change no further state). -/
inductive Reachable (input : List Nat) : CapState → Prop where
  | init (s : CapState) (h : capNew input = .ok s) : Reachable input s
  | step (s : CapState) (r : ORes Unit) (s2 : CapState)
      (hs : Reachable input s) (h : advance s = (r, s2)) : Reachable input s2

/-! ### Timestamp resolution helpers of the other generations
(src/iface.rs, src/packet.rs) -/

/-- Model of `InterfaceInfo::resolve_ts` (src/iface.rs), parameterised by
the interface's `if_tsresol` (its `units_per_sec`): seconds `ts / u` and
nanoseconds `(ts % u) * 10⁹ / u`, cast to u32 and added to the epoch. -/
def resolveTs (ifTsresol ts : Nat) : Nat × Nat :=
  durationNew (ts / ifTsresol)
    (ts % ifTsresol * 1000000000 / ifTsresol % 2 ^ 32)

/-- Model of the timestamp computation of `Packet::new_enhanced`
(src/packet.rs): a hard-coded microsecond resolution, and nanoseconds
computed as `(timestamp * 10⁹ / resolution) as u32` from the full
timestamp — the multiplication is in u64 (wrapping in release builds) and
the quotient is truncated to u32 before `Duration::new`. -/
def newEnhancedTimestamp (timestamp : Nat) : Nat × Nat :=
  durationNew (timestamp / 1000000)
    (timestamp * 1000000000 % 2 ^ 64 / 1000000 % 2 ^ 32)

/-- Wall-clock conversion exactly as the specification words it:
`seconds = ts / u`, `nanos = (ts mod u) × 10⁹ / u`. -/
def wallClockSpec (u ts : Nat) : Nat × Nat :=
  (ts / u, ts % u * 1000000000 / u)

/-! ### Specification-side definitions and predicates -/

/-- The if_tsresol decoding as the specification words it: for a type-9
option whose value is the single byte `v`, the exponent is the low 7 bits
of `v` and the base is 10 or 2 by its top bit; defined (`some`) exactly
when `base ^ exponent` fits a 32-bit unsigned. -/
def tsresolOfEventSpec (ev : Nat × List Nat) : Option Nat :=
  match ev with
  | (9, [v]) =>
    if (if v / 128 = 0 then 10 else 2) ^ (v % 128) ≤ 4294967295 then
      some ((if v / 128 = 0 then 10 else 2) ^ (v % 128))
    else none
  | _ => none

/-- The option events of an IDB body: what `parse_options` hands to the
callback after the 8 fixed bytes. -/
def idbOptionEvents (buf : List Nat) (e : Endianness) :
    List (Nat × List Nat) :=
  match parseOptions e (buf.drop 8) with
  | .events evs => evs
  | _ => []

/-- The `if_tsresol` field (`units_per_sec`) of a decoded IDB, when the
decode succeeds. -/
def parsedTsresol (buf : List Nat) (e : Endianness) : Option Nat :=
  match InterfaceDescriptionN.parse buf e with
  | .ok d => some d.ifTsresol
  | _ => none

/-- A capture state sitting on a block whose length field is zero: at
least eight buffered bytes, the four type bytes differ from the SHB code,
the four length bytes are zero, the previous block is fully consumed
(`last_block_len = 0`) and the capture is not finished.  `Capture::advance`
returns the `BlockLengthTooShort` framing error from such a state and
leaves it unchanged. -/
def Stuck (s : CapState) : Prop :=
  s.finished = false ∧
  s.lastBlockLen = 0 ∧
  8 ≤ (s.input.drop s.pos).length ∧
  (s.input.drop s.pos).take 4 ≠ [0x0A, 0x0D, 0x0D, 0x0A] ∧
  ((s.input.drop s.pos).drop 4).take 4 = [0, 0, 0, 0]

/-- Interface-table invariant, parameterised: the interface stored at
index `i` of the table carries the id `(section, i)`. -/
def IfaceInvP (l : List InterfaceOld) (cs : Nat) : Prop :=
  ∀ (i : Nat) (ifc : InterfaceOld),
    l.get? i = some ifc → ifc.id = (cs, i)

/-- Interface-table invariant of the capture engine: the interface stored
at index `i` carries the id `(current_section, i)`. -/
def IfaceInv (s : CapState) : Prop :=
  IfaceInvP s.interfaces s.currentSection

/-! ### Concrete inputs used by witnesses and counterexamples -/

/-- An obsolete-packet body whose timestamp has `hi = 1`, `lo = 0`
(big-endian): interface id 0, drops 0, captured and original lengths 0. -/
def opbBody : List Nat :=
  [0, 0, 0, 0, 0, 0, 0, 1, 0, 0, 0, 0, 0, 0, 0, 0, 0, 0, 0, 0]

/-- A little-endian capture: a 28-byte SHB followed by a block whose
total-length field is zero (type 6). -/
def c4Input : List Nat :=
  [0x0A, 0x0D, 0x0D, 0x0A, 28, 0, 0, 0, 0x4D, 0x3C, 0x2B, 0x1A, 1, 0, 0, 0,
   255, 255, 255, 255, 255, 255, 255, 255, 28, 0, 0, 0,
   6, 0, 0, 0, 0, 0, 0, 0]

/-- The capture state reached after `next` first reports the framing
error on `c4Input`: positioned at byte 28, on the zero-length block. -/
def c4StuckState : CapState :=
  { input := c4Input, pos := 28, finished := false
    endianness := .little, interfaces := [], resolvedNames := []
    lastBlockLen := 0, currentSection := 1, currentTimestamp := none
    currentInterface := none, currentData := (0, 0) }

/-- A little-endian capture: a 28-byte SHB followed by a 20-byte IDB
(link type 1, snap length 65535, no options). -/
def c8Input : List Nat :=
  [0x0A, 0x0D, 0x0D, 0x0A, 28, 0, 0, 0, 0x4D, 0x3C, 0x2B, 0x1A, 1, 0, 0, 0,
   255, 255, 255, 255, 255, 255, 255, 255, 28, 0, 0, 0,
   1, 0, 0, 0, 20, 0, 0, 0, 1, 0, 0, 0, 0xFF, 0xFF, 0, 0, 20, 0, 0, 0]

/-- The state `Capture::new` builds on `c8Input`. -/
def c8State0 : CapState :=
  { input := c8Input, pos := 0, finished := false
    endianness := .little, interfaces := [], resolvedNames := []
    lastBlockLen := 0, currentSection := 0, currentTimestamp := none
    currentInterface := none, currentData := (0, 0) }

/-- The interface defined by the IDB of `c8Input`. -/
def c8Iface : InterfaceOld :=
  { id := (1, 0), linkType := 1, unitsPerSec := 1000000 }

/-- The state after one `advance` on `c8State0`: section 1, one
interface, end of input reached. -/
def c8State1 : CapState :=
  { input := c8Input, pos := 48, finished := true
    endianness := .little, interfaces := [c8Iface], resolvedNames := []
    lastBlockLen := 0, currentSection := 1, currentTimestamp := none
    currentInterface := none, currentData := (0, 0) }

/-- An IDB body carrying an if_tsresol option with value byte 127
(base 10, exponent 127 — far beyond u32), then end-of-options
(little-endian). -/
def idbOverflowBody : List Nat :=
  [1, 0, 0, 0, 0, 0, 0, 0, 9, 0, 1, 0, 127, 0, 0, 0, 0, 0, 0, 0]

theorem readBytes_length_le {len : Nat} {buf val rest : List Nat}
    (h : readBytes len buf = some (val, rest)) :
    rest.length ≤ buf.length := by
  unfold readBytes at h
  split at h
  · exact absurd h (by simp)
  · simp only [Option.some.injEq, Prod.mk.injEq] at h
    rw [← h.2]
    simp [List.length_drop]

theorem parseOptionsF_ne_panic (e : Endianness) :
    ∀ (fuel : Nat) (buf : List Nat), parseOptionsF e fuel buf ≠ OptRun.panic := by
  intro fuel
  induction fuel with
  | zero => intro buf; simp [parseOptionsF]
  | succ n ih =>
    intro buf
    match buf with
    | [] => simp [parseOptionsF]
    | [b0] => simp [parseOptionsF]
    | [b0, b1] => simp [parseOptionsF]
    | [b0, b1, b2] => simp [parseOptionsF]
    | b0 :: b1 :: b2 :: b3 :: rest =>
      have hlen : 3 < (b0 :: b1 :: b2 :: b3 :: rest).length := by
        simp only [List.length_cons]; omega
      simp only [parseOptionsF, if_pos hlen, readU16]
      rcases hrb : readBytes (be16 e b2 b3) rest with _ | ⟨val, buf2⟩
      · simp
      · simp only
        split
        · simp
        · split
          · exact ih _
          · split
            · exact ih _
            · rcases hrec : parseOptionsF e n buf2 with evs | _ | _
              · simp
              · exact absurd hrec (ih _)
              · simp [hrec]

theorem parseOptionsF_no_fuelOut (e : Endianness) :
    ∀ (fuel : Nat) (buf : List Nat), buf.length < 4 * fuel →
      parseOptionsF e fuel buf ≠ OptRun.fuelOut := by
  intro fuel
  induction fuel with
  | zero => intro buf h; omega
  | succ n ih =>
    intro buf hfuel
    match buf with
    | [] => simp [parseOptionsF]
    | [b0] => simp [parseOptionsF]
    | [b0, b1] => simp [parseOptionsF]
    | [b0, b1, b2] => simp [parseOptionsF]
    | b0 :: b1 :: b2 :: b3 :: rest =>
      have hlen : 3 < (b0 :: b1 :: b2 :: b3 :: rest).length := by
        simp only [List.length_cons]; omega
      simp only [parseOptionsF, if_pos hlen, readU16]
      rcases hrb : readBytes (be16 e b2 b3) rest with _ | ⟨val, buf2⟩
      · simp
      · have hb2 : buf2.length ≤ rest.length := readBytes_length_le hrb
        have hrec : buf2.length < 4 * n := by
          simp only [List.length_cons] at hfuel
          omega
        simp only
        split
        · simp
        · split
          · exact ih _ hrec
          · split
            · exact ih _ hrec
            · rcases hr : parseOptionsF e n buf2 with evs | _ | _
              · simp
              · exact absurd hr (parseOptionsF_ne_panic e n buf2)
              · exact absurd hr (ih _ hrec)

theorem parseOptions_events (e : Endianness) (buf : List Nat) :
    ∃ evs, parseOptions e buf = OptRun.events evs := by
  unfold parseOptions
  rcases h : parseOptionsF e (buf.length + 1) buf with evs | _ | _
  · exact ⟨evs, rfl⟩
  · exact absurd h (parseOptionsF_ne_panic e _ buf)
  · exact absurd h (parseOptionsF_no_fuelOut e _ buf (by omega))

theorem exists_cons8 (l : List Nat) (h : 8 ≤ l.length) :
    ∃ b0 b1 b2 b3 b4 b5 b6 b7 rest,
      l = b0 :: b1 :: b2 :: b3 :: b4 :: b5 :: b6 :: b7 :: rest := by
  match l with
  | b0 :: b1 :: b2 :: b3 :: b4 :: b5 :: b6 :: b7 :: rest =>
    exact ⟨b0, b1, b2, b3, b4, b5, b6, b7, rest, rfl⟩
  | [] | [_] | [_, _] | [_, _, _] | [_, _, _, _] | [_, _, _, _, _]
  | [_, _, _, _, _, _] | [_, _, _, _, _, _, _] => simp at h

theorem resolveTs_eq_wallClockSpec (u ts : Nat) (hu : 0 < u) :
    resolveTs u ts = wallClockSpec u ts := by
  unfold resolveTs wallClockSpec durationNew
  have hmod : ts % u < u := Nat.mod_lt _ hu
  have hlt : ts % u * 1000000000 / u < 1000000000 := by
    apply Nat.div_lt_of_lt_mul
    exact Nat.mul_lt_mul_of_lt_of_le hmod (Nat.le_refl _) (by norm_num)
  have hcast : ts % u * 1000000000 / u % 2 ^ 32 =
      ts % u * 1000000000 / u := Nat.mod_eq_of_lt (by omega)
  rw [hcast]
  rw [Nat.div_eq_of_lt hlt, Nat.mod_eq_of_lt hlt, Nat.add_zero]

theorem tsresolOfEventSpec_ne_nine {ty : Nat} (bytes : List Nat)
    (h : ty ≠ 9) : tsresolOfEventSpec (ty, bytes) = none := by
  unfold tsresolOfEventSpec
  split
  · rename_i heq
    injection heq with h1 h2
    exact absurd h1 h
  · rfl

theorem applyOption_ifTsresol (e : Endianness) (d : InterfaceDescriptionN)
    (ev : Nat × List Nat) :
    (InterfaceDescriptionN.applyOption e d ev).ifTsresol =
      (tsresolOfEventSpec ev).getD d.ifTsresol := by
  obtain ⟨ty, bytes⟩ := ev
  by_cases h9 : ty = 9
  · subst h9
    unfold InterfaceDescriptionN.applyOption tsresolOfEventSpec
    dsimp only
    match bytes with
    | [] => simp [bytesToArray]
    | [v] =>
      simp only [bytesToArray, List.length_cons, List.length_nil, if_pos]
      unfold applyTsresol
      split <;> split <;> simp
    | v :: w :: tl => simp [bytesToArray]
  · rw [tsresolOfEventSpec_ne_nine bytes h9]
    unfold InterfaceDescriptionN.applyOption
    dsimp only
    split <;>
      first
        | exact absurd rfl h9
        | ((try split) <;> simp)

theorem foldl_ifTsresol (e : Endianness) (evs : List (Nat × List Nat))
    (d : InterfaceDescriptionN) :
    (evs.foldl (InterfaceDescriptionN.applyOption e) d).ifTsresol =
      (evs.filterMap tsresolOfEventSpec).getLastD d.ifTsresol := by
  induction evs generalizing d with
  | nil => simp
  | cons ev evs ih =>
    rw [List.foldl_cons, ih, List.filterMap_cons]
    rcases h : tsresolOfEventSpec ev with _ | x
    · rw [applyOption_ifTsresol, h]
      rfl
    · rw [applyOption_ifTsresol, h, List.getLastD_cons]
      rfl

/-- C5 (amended): for every IDB body that is long enough to decode (at
least the 8 fixed bytes — the decode then always succeeds), the emitted
`units_per_sec` (`if_tsresol`) is the last fitting if_tsresol value among
the option events, decoded per the specification (exponent in the low 7
bits, base 10 or 2 by the top bit), defaulting to 10⁶ when no such option
is present; an if_tsresol whose `base ^ exponent` exceeds a 32-bit
unsigned is skipped (warned about) rather than flagging the interface's
timestamps unusable. -/
theorem idb_units_per_sec_fold (buf : List Nat) (e : Endianness) :
    parsedTsresol buf e =
      if 8 ≤ buf.length then
        some (((idbOptionEvents buf e).filterMap
          tsresolOfEventSpec).getLastD 1000000)
      else none := by
  by_cases h8 : 8 ≤ buf.length
  · rw [if_pos h8]
    obtain ⟨b0, b1, b2, b3, b4, b5, b6, b7, rest, rfl⟩ := exists_cons8 buf h8
    unfold parsedTsresol InterfaceDescriptionN.parse idbOptionEvents
    rw [if_neg (by simp only [List.length_cons]; omega)]
    simp only [readU16, readU32, List.drop_succ_cons, List.drop_zero]
    obtain ⟨evs, hevs⟩ := parseOptions_events e rest
    rw [hevs]
    dsimp only
    rw [foldl_ifTsresol]
  · rw [if_neg h8]
    unfold parsedTsresol InterfaceDescriptionN.parse
    rw [if_pos (by omega)]

/-- C7: the option parser never fails: for every buffer and endianness it
produces a (possibly empty) list of callback events — never an error and
never a panic — and consequently never prevents the containing block from
being emitted: an interface-statistics body consisting of any 12 fixed
bytes followed by an arbitrary option buffer always decodes to `ok`. -/
theorem parse_options_never_fails (e : Endianness) (buf : List Nat) :
    (∃ evs, parseOptions e buf = OptRun.events evs) ∧
    ∀ (b0 b1 b2 b3 b4 b5 b6 b7 b8 b9 b10 b11 : Nat) (opts : List Nat),
      ∃ isb, InterfaceStatisticsN.parse
          (b0 :: b1 :: b2 :: b3 :: b4 :: b5 :: b6 :: b7 :: b8 :: b9 ::
            b10 :: b11 :: opts) e = PRes.ok isb := by
  refine ⟨parseOptions_events e buf, ?_⟩
  intro b0 b1 b2 b3 b4 b5 b6 b7 b8 b9 b10 b11 opts
  unfold InterfaceStatisticsN.parse
  rw [if_neg (by simp only [List.length_cons]; omega)]
  simp only [readU32, readTs]
  obtain ⟨evs, hevs⟩ := parseOptions_events e opts
  rw [hevs]
  exact ⟨_, rfl⟩

/-- C9: the option-parsing loop terminates on every input: each iteration
consumes at least four bytes (2-byte type, 2-byte length, value and
padding), so any fuel exceeding a quarter of the buffer length is never
exhausted. -/
theorem parse_options_fuel_bound (e : Endianness) (fuel : Nat)
    (buf : List Nat) (h : buf.length < 4 * fuel) :
    parseOptionsF e fuel buf ≠ OptRun.fuelOut :=
  parseOptionsF_no_fuelOut e fuel buf h

/-- Witness for C9 at a concrete buffer holding one 1-byte option. -/
theorem parse_options_fuel_bound_witness :
    ([2, 0, 1, 0, 7, 0, 0, 0] : List Nat).length < 4 * 3 ∧
      parseOptionsF .little 3 [2, 0, 1, 0, 7, 0, 0, 0] ≠ OptRun.fuelOut :=
  ⟨by decide, parse_options_fuel_bound .little 3 _ (by decide)⟩

/-- C1: for an obsolete-packet body, the decoded timestamp should be
`(hi << 32) + lo`.  The cursor-based decoder (src/block/opb.rs via
`read_ts`) indeed yields `2 ^ 32` on a body with `hi = 1, lo = 0`, but the
slice-based decoder (src/block.rs, `ObsoletePacket::parse`) computes
`(hi << 4) + lo` and yields 16 on the same body. -/
theorem obsolete_packet_timestamp_shift :
    ObsoletePacketOld.parse opbBody .big =
      .ok { interfaceId := 0, dropsCount := 0, timestamp := 16
            capturedLen := 0, packetLen := 0, packetData := (20, 20)
            options := [] } ∧
    ObsoletePacketN.parse opbBody .big =
      .ok { interfaceId := 0, dropsCount := some 0
            timestamp := 4294967296
            capturedLen := 0, packetLen := 0, packetData := []
            options := [] } ∧
    (16 : Nat) ≠ 1 * 2 ^ 32 + 0 := by decide

/-- C2: the claim says every block-body decoder checks remaining bytes
before reading and can only return a typed block or `TruncatedBlock`.
The old `EnhancedPacket::parse` (src/block.rs) reads `buf[12..16]` before
any bounds check and panics on a 12-byte body; the new
`SectionHeader::parse` (src/block/shb.rs) checks 12 remaining bytes but
consumes 16 and panics on a 12-byte body too. -/
theorem block_decoders_panic_on_short_body :
    EnhancedPacketOld.parse (List.replicate 12 0) .big = .panic ∧
    SectionHeaderN.parse (List.replicate 12 0) .little = .panic := by decide

/-- C3: the claim says an SPB's captured length is the remaining body
length (body minus 4) and that a body shorter than `packet_len` still
decodes.  The decoder (src/block/spb.rs) instead reads exactly
`packet_len` bytes: a 4-byte body with `packet_len = 8` fails with
`TruncatedBlock`, an 8-byte body with `packet_len = 2` yields 2 data
bytes (not 4), and the old slice-based decoder (src/block.rs) fails the
same way with `NotEnoughBytes`. -/
theorem simple_packet_truncation_rejected :
    SimplePacketN.parse [8, 0, 0, 0] .little = .truncated ∧
    SimplePacketN.parse [2, 0, 0, 0, 170, 187, 204, 221] .little =
      .ok { packetLen := 2, packetData := [170, 187] } ∧
    SimplePacketOld.parse [8, 0, 0, 0] .little =
      .err (.notEnoughBytes 12 4) := by decide

/-- C6: the wall-clock conversion should be `seconds = ts / u`,
`nanos = (ts mod u) × 10⁹ / u`.  `InterfaceInfo::resolve_ts`
(src/iface.rs) matches that formula at `ts = 1500000, u = 10⁶`, but
`Packet::new_enhanced` (src/packet.rs) computes nanoseconds from the full
timestamp and produces 2.5 seconds after the epoch instead of 1.5. -/
theorem new_enhanced_timestamp_wrong :
    newEnhancedTimestamp 1500000 = (2, 500000000) ∧
    wallClockSpec 1000000 1500000 = (1, 500000000) ∧
    resolveTs 1000000 1500000 = (1, 500000000) ∧
    newEnhancedTimestamp 1500000 ≠ wallClockSpec 1000000 1500000 := by
  decide

/-- C5 (counterexample): an if_tsresol of base 10, exponent 127 does not
fit a 32-bit unsigned; the claim says such an interface's timestamps are
flagged unusable.  The decoder (src/block/idb.rs) instead emits the IDB
with `units_per_sec` left at the 10⁶ default (indistinguishable from a
microsecond interface), and the old `Interface::from_desc` (src/types.rs)
fails the whole IDB with `ResolutionTooHigh`. -/
theorem idb_tsresol_overflow_keeps_default :
    parsedTsresol idbOverflowBody .little = some 1000000 ∧
    ¬ 10 ^ 127 ≤ 4294967295 ∧
    fromDesc .little (0, 0)
      { linkType := 1, snapLen := 0
        options := [9, 0, 1, 0, 127, 0, 0, 0] } =
      .err .resolutionTooHigh := by decide

theorem be32_zero (e : Endianness) : be32 e 0 0 0 0 = 0 := by
  cases e <;> rfl

theorem advance_stuck {s : CapState} (h : Stuck s) :
    advance s = (ORes.err Err.blockLengthTooShort, s) := by
  obtain ⟨input, pos, fin, en, ifs, rn, last, cs, cts, cif, cd⟩ := s
  obtain ⟨hfin, hlast, hlen, hmagic, hzero⟩ := h
  simp only at hfin hlast hlen hmagic hzero
  subst hfin
  subst hlast
  have hpos : pos ≤ input.length := by
    rw [List.length_drop] at hlen
    omega
  obtain ⟨b0, b1, b2, b3, b4, b5, b6, b7, rest, hbuf⟩ :=
    exists_cons8 (input.drop pos) hlen
  rw [hbuf] at hmagic
  have hzero4 : [b4, b5, b6, b7] = [0, 0, 0, 0] := by
    rw [hbuf] at hzero
    exact hzero
  simp only [List.cons.injEq, and_true] at hzero4
  obtain ⟨h4, h5, h6, h7⟩ := hzero4
  subst h4; subst h5; subst h6; subst h7
  have hne : (input.drop pos).isEmpty = false := by
    rw [hbuf]; rfl
  have hpeek : peekForShb (input.drop pos) = .ok none := by
    rw [hbuf]
    unfold peekForShb requireBytes
    rw [if_neg (by simp only [List.length_cons]; omega)]
    rw [if_pos hmagic]
  have hparse : BlockOld.parse (input.drop pos) en =
      (0, .err .blockLengthTooShort) := by
    rw [hbuf]
    unfold BlockOld.parse requireBytes
    rw [if_neg (by simp only [List.length_cons]; omega)]
    simp only [sliceU32, List.drop_zero, readU32, Option.map_some']
    have hdrop : (b0 :: b1 :: b2 :: b3 :: 0 :: 0 :: 0 :: 0 :: rest).drop 4 =
        0 :: 0 :: 0 :: 0 :: rest := rfl
    rw [hdrop]
    simp only [readU32, Option.map_some']
    rw [be32_zero]
    rfl
  unfold advance
  simp only [advanceF, Nat.add_zero, min_eq_left hpos, hne,
    Bool.false_eq_true, if_false, hpeek, updateEndianness, hparse]

theorem capNext_stuck {s : CapState} (h : Stuck s) :
    capNext s = (NextOut.error Err.blockLengthTooShort, s) := by
  unfold capNext
  rw [advance_stuck h]

/-- C4 (amended): a framing error does not end the iteration: `advance`
neither marks the capture finished nor consumes the offending block when
its length field is zero, so from any state sitting on a zero-length
block (`Stuck`), every subsequent call to `next` returns the
`BlockLengthTooShort` framing error again — never end-of-stream. -/
theorem framing_error_repeats_forever (s : CapState) (h : Stuck s)
    (k : Nat) :
    (nextIter k s).1 = NextOut.error Err.blockLengthTooShort := by
  induction k with
  | zero =>
    unfold nextIter
    rw [capNext_stuck h]
  | succ n ih =>
    unfold nextIter
    rw [capNext_stuck h]
    exact ih

/-- Witness for C4 at the concrete state reached on `c4Input`. -/
theorem framing_error_repeats_forever_witness :
    (nextIter 2 c4StuckState).1 = NextOut.error Err.blockLengthTooShort :=
  framing_error_repeats_forever c4StuckState
    ⟨rfl, rfl, by decide, by decide, by decide⟩ 2

/-- C4 (counterexample): on `c4Input` the first `next` reports the
`BlockLengthTooShort` framing error and the second `next` reports the
same error again instead of end-of-stream. -/
theorem framing_error_then_more_errors :
    (capNew c4Input).mapO
        (fun s => ((nextIter 0 s).1, (nextIter 1 s).1)) =
      ORes.ok (NextOut.error Err.blockLengthTooShort,
        NextOut.error Err.blockLengthTooShort) := by decide

theorem fromDesc_id {e : Endianness} {idp : Nat × Nat}
    {d : InterfaceDescriptionOld} {ifc : InterfaceOld}
    (h : fromDesc e idp d = .ok ifc) : ifc.id = idp := by
  unfold fromDesc at h
  rcases hl : fromDescLoopF e d.options (d.options.length + 1) 0 1000000
    with u | er | _
  · rw [hl] at h
    simp only [ORes.mapO, ORes.ok.injEq] at h
    rw [← h]
  · rw [hl] at h
    exact absurd h (by simp [ORes.mapO])
  · rw [hl] at h
    exact absurd h (by simp [ORes.mapO])

theorem ifaceInvP_push {l : List InterfaceOld} {cs : Nat}
    (hinv : IfaceInvP l cs) (ifc0 : InterfaceOld)
    (hid : ifc0.id = (cs, l.length)) :
    IfaceInvP (l ++ [ifc0]) cs := by
  intro i ifc hget
  rcases Nat.lt_trichotomy i l.length with hlt | heqi | hgt
  · rw [List.get?_append hlt] at hget
    exact hinv i ifc hget
  · subst heqi
    rw [List.get?_concat_length] at hget
    injection hget with h
    rw [← h]
    exact hid
  · have hnone : (l ++ [ifc0]).get? i = none := by
      rw [List.get?_eq_none]
      simp only [List.length_append, List.length_cons, List.length_nil]
      omega
    rw [hnone] at hget
    exact absurd hget (by simp)

theorem ifaceInvP_nil (cs : Nat) : IfaceInvP [] cs := by
  intro i ifc hget
  simp at hget

theorem updateEndianness_interfaces (s : CapState)
    (oe : Option Endianness) :
    (updateEndianness s oe).interfaces = s.interfaces := by
  cases oe <;> rfl

theorem updateEndianness_currentSection (s : CapState)
    (oe : Option Endianness) :
    (updateEndianness s oe).currentSection = s.currentSection := by
  cases oe <;> rfl

theorem advanceF_inv :
    ∀ (fuel : Nat) (s : CapState) (r : ORes Unit) (s2 : CapState),
      advanceF fuel s = some (r, s2) → IfaceInv s → IfaceInv s2 := by
  intro fuel
  induction fuel with
  | zero =>
    intro s r s2 h hinv
    simp [advanceF] at h
  | succ n ih =>
    intro s r s2 h hinv
    simp only [advanceF] at h
    split at h
    · simp only [Option.some.injEq, Prod.mk.injEq] at h
      rw [← h.2]
      exact hinv
    · split at h
      · simp only [Option.some.injEq, Prod.mk.injEq] at h
        rw [← h.2]
        exact hinv
      · simp only [Option.some.injEq, Prod.mk.injEq] at h
        rw [← h.2]
        exact hinv
      · split at h
        · simp only [Option.some.injEq, Prod.mk.injEq] at h
          rw [← h.2]
          unfold IfaceInv
          simp only [updateEndianness_interfaces,
            updateEndianness_currentSection]
          exact hinv
        · simp only [Option.some.injEq, Prod.mk.injEq] at h
          rw [← h.2]
          unfold IfaceInv
          simp only [updateEndianness_interfaces,
            updateEndianness_currentSection]
          exact hinv
        · split at h
          · split at h
            · simp only [Option.some.injEq, Prod.mk.injEq] at h
              rw [← h.2]
              unfold IfaceInv
              simp only [updateEndianness_interfaces,
                updateEndianness_currentSection]
              exact hinv
            · exact ih _ _ _ h (ifaceInvP_nil _)
          · split at h
            · rename_i heq
              refine ih _ _ _ h ?_
              unfold IfaceInv
              refine ifaceInvP_push ?_ _ (fromDesc_id heq)
              simp only [updateEndianness_interfaces,
                updateEndianness_currentSection]
              exact hinv
            · simp only [Option.some.injEq, Prod.mk.injEq] at h
              rw [← h.2]
              unfold IfaceInv
              simp only [updateEndianness_interfaces,
                updateEndianness_currentSection]
              exact hinv
            · simp only [Option.some.injEq, Prod.mk.injEq] at h
              rw [← h.2]
              unfold IfaceInv
              simp only [updateEndianness_interfaces,
                updateEndianness_currentSection]
              exact hinv
          · simp only [Option.some.injEq, Prod.mk.injEq] at h
            rw [← h.2]
            unfold IfaceInv
            simp only [updateEndianness_interfaces,
              updateEndianness_currentSection]
            exact hinv
          · simp only [Option.some.injEq, Prod.mk.injEq] at h
            rw [← h.2]
            unfold IfaceInv
            simp only [updateEndianness_interfaces,
              updateEndianness_currentSection]
            exact hinv
          · simp only [Option.some.injEq, Prod.mk.injEq] at h
            rw [← h.2]
            unfold IfaceInv
            simp only [updateEndianness_interfaces,
              updateEndianness_currentSection]
            exact hinv
          all_goals
            refine ih _ _ _ h ?_
            unfold IfaceInv
            simp only [updateEndianness_interfaces,
              updateEndianness_currentSection]
            exact hinv

theorem capNew_inv {input : List Nat} {s : CapState}
    (h : capNew input = ORes.ok s) : IfaceInv s := by
  unfold capNew at h
  split at h
  · exact absurd h (by simp)
  · exact absurd h (by simp)
  · exact absurd h (by simp)
  · simp only [ORes.ok.injEq] at h
    rw [← h]
    exact ifaceInvP_nil _

theorem reachable_inv {input : List Nat} {s : CapState}
    (h : Reachable input s) : IfaceInv s := by
  induction h with
  | init s hnew => exact capNew_inv hnew
  | step s r s2 hs hadv ih =>
    unfold advance at hadv
    rcases hF : advanceF (s.input.length + 1) s with _ | p
    · rw [hF] at hadv
      simp only [Prod.mk.injEq] at hadv
      rw [← hadv.2]
      exact ih
    · rw [hF] at hadv
      dsimp only at hadv
      exact advanceF_inv _ s r s2 (by rw [hF, hadv]) ih

/-- C8: for every reachable capture state, `lookup_interface (a, b)`
returns an interface exactly when `a` is the current section index and
`b` indexes the current section's interface table; the interface returned
is the one stored at index `b`, and its stored id is `(a, b)` — ids of
any other section return `none`. -/
theorem lookup_interface_current_section (input : List Nat) (s : CapState)
    (hr : Reachable input s) (a b : Nat) (ifc : InterfaceOld) :
    lookupInterface s (a, b) = some ifc ↔
      a = s.currentSection ∧ s.interfaces.get? b = some ifc ∧
        ifc.id = (a, b) := by
  have hinv := reachable_inv hr
  unfold lookupInterface
  by_cases ha : a = s.currentSection
  · rw [if_neg (not_not_intro ha)]
    constructor
    · intro hg
      refine ⟨ha, hg, ?_⟩
      rw [ha]
      exact hinv b ifc hg
    · rintro ⟨_, hg, _⟩
      exact hg
  · rw [if_pos ha]
    simp [ha]

/-- Witness for C8 on a concrete capture holding one SHB and one IDB. -/
theorem lookup_interface_current_section_witness :
    lookupInterface c8State1 (1, 0) = some c8Iface :=
  (lookup_interface_current_section c8Input c8State1
      (Reachable.step c8State0 (.ok ()) c8State1
        (Reachable.init c8State0 (by decide))
        (by decide))
      1 0 c8Iface).mpr
    ⟨by decide, by decide, by decide⟩

/-- C10: `Capture::new` distinguishes short input from a wrong first
block: fewer than 4 available bytes fail with `NotEnoughBytes`
(expected 4); an input starting with the SHB type code but shorter than
12 bytes fails with `NotEnoughBytes` (expected 12); and the
`DidntStartWithSHB` error occurs only when at least 4 bytes are available
and they differ from the SHB type code. -/
theorem capture_new_error_discrimination (input : List Nat) :
    (input.length < 4 →
      capNew input = .err (.notEnoughBytes 4 input.length)) ∧
    (input.take 4 = [0x0A, 0x0D, 0x0D, 0x0A] → input.length < 12 →
      capNew input = .err (.notEnoughBytes 12 input.length)) ∧
    (capNew input = .err .didntStartWithSHB →
      4 ≤ input.length ∧ input.take 4 ≠ [0x0A, 0x0D, 0x0D, 0x0A]) := by
  refine ⟨?_, ?_, ?_⟩
  · intro h4
    unfold capNew peekForShb requireBytes
    rw [if_pos h4]
  · intro hm h12
    unfold capNew peekForShb requireBytes
    have h4 : ¬ input.length < 4 := by
      intro hlt
      have : input.take 4 = input := List.take_of_length_le (by omega)
      rw [this] at hm
      have : input.length = 4 := by rw [hm]; rfl
      omega
    rw [if_neg h4, if_neg (not_not_intro hm), if_pos h12]
  · intro herr
    unfold capNew peekForShb requireBytes at herr
    by_cases h4 : input.length < 4
    · rw [if_pos h4] at herr
      exact absurd herr (by simp)
    · rw [if_neg h4] at herr
      dsimp only at herr
      by_cases hm : input.take 4 ≠ [0x0A, 0x0D, 0x0D, 0x0A]
      · exact ⟨by omega, hm⟩
      · rw [if_neg hm] at herr
        by_cases h12 : input.length < 12
        · rw [if_pos h12] at herr
          exact absurd herr (by simp)
        · rw [if_neg h12] at herr
          dsimp only at herr
          unfold Endianness.parseFromMagic at herr
          split at herr
          · rename_i er heq
            split at heq
            · simp_all [ORes.mapO]
            · split at heq
              · simp_all [ORes.mapO]
              · split at heq
                · simp_all [ORes.mapO]
                · simp_all [ORes.mapO]
          · exact absurd herr (by simp)
          · rename_i heq
            split at heq
            · simp_all [ORes.mapO]
            · split at heq
              · simp_all [ORes.mapO]
              · split at heq
                · simp_all [ORes.mapO]
                · simp_all [ORes.mapO]
          · exact absurd herr (by simp)

/-- Witness for C10: a 4-byte input starting with the SHB type code. -/
theorem capture_new_error_discrimination_witness :
    capNew [0x0A, 0x0D, 0x0D, 0x0A] =
      ORes.err (Err.notEnoughBytes 12 4) :=
  (capture_new_error_discrimination [0x0A, 0x0D, 0x0D, 0x0A]).2.1
    (by decide) (by decide)

end Pcarp
